import Mathlib

/-
Verification of the Foodgram backend core (backend/api/mixins.py and
backend/api/views.py): the many-to-many toggle mixin, the ingredient
search normalizer and ranking, the recipe query filter, and the
shopping-list aggregation/export.

The relational store is embedded shallowly: a user's three
many-to-many relations (subscriptions, favorites, shopping cart) are
lists of object ids, querysets are lists of rows, and each request
handler is a pure function from the request data and the pre-state to
a response and a post-state.
-/

set_option maxHeartbeats 1000000

/-- A user row together with the three many-to-many relations that the
toggle mixin mutates (`user.subscribe`, `user.favorites`, `user.carts`
in the Django model).  Each relation is the list of related object
ids. -/
structure UserR where
  id : Nat
  first_name : String
  subscribe : List Nat
  favorites : List Nat
  carts : List Nat
deriving DecidableEq, Repr

/-- Relation keys dispatched by `AddDelViewMixin._get_relation`
(`conf.SUBSCRIBE_M2M`, `conf.FAVORITE_M2M`, `conf.SHOP_CART_M2M`). -/
inductive RelationKey where
  | SUBSCRIBE_M2M
  | FAVORITE_M2M
  | SHOP_CART_M2M
deriving DecidableEq, Repr

/-- Modelled from the spec: `conf.ADD_METHODS` is not under src/; the
spec calls these the "addition" methods of the strict toggle. -/
def ADD_METHODS : List String := ["POST"]

/-- Modelled from the spec: `conf.DEL_METHODS` is not under src/; the
spec calls these the "removal" methods of the strict toggle. -/
def DEL_METHODS : List String := ["DELETE"]

/-- HTTP statuses the handlers return.  `s404` stands for the
`Http404` raised by `get_object_or_404`. -/
inductive Status where
  | s201
  | s204
  | s400
  | s401
  | s404
deriving DecidableEq, Repr

/-- A DRF `Response`: a status and, for the 201 branch, the serialized
object (modelled by its id, the payload of `add_serializer(obj)`). -/
structure Response where
  status : Status
  payload : Option Nat
deriving DecidableEq, Repr

/-- `AddDelViewMixin._get_relation`: maps a relation key to the
current user's relation collection. -/
def _get_relation (u : UserR) : RelationKey → List Nat
  | .SUBSCRIBE_M2M => u.subscribe
  | .FAVORITE_M2M => u.favorites
  | .SHOP_CART_M2M => u.carts

/-- Writes back the relation selected by the key; the state-passing
counterpart of mutating the Django related manager in place. -/
def set_relation (u : UserR) : RelationKey → List Nat → UserR
  | .SUBSCRIBE_M2M, l => { u with subscribe := l }
  | .FAVORITE_M2M, l => { u with favorites := l }
  | .SHOP_CART_M2M, l => { u with carts := l }

/-- `AddDelViewMixin.add_del_obj`: the strict add/remove toggle.
`user = none` models an anonymous request (`user.is_anonymous`);
`queryset` is the list of ids of the resource's base collection
(`get_object_or_404(self.queryset, id=obj_id)` succeeds exactly when
`obj_id` is in it).  `relation.filter(id=obj_id).exists()` is
membership in the resolved relation, `relation.add(obj)` appends the
id, `relation.remove(obj)` deletes it.  Returns the response and the
post-state of the calling user. -/
def add_del_obj (method : String) (user : Option UserR) (queryset : List Nat)
    (obj_id : Nat) (relation : RelationKey) : Response × Option UserR :=
  match user with
  | none => (⟨.s401, none⟩, none)
  | some u =>
    let rel := _get_relation u relation
    if obj_id ∈ queryset then
      if method ∈ ADD_METHODS ∧ obj_id ∉ rel then
        (⟨.s201, some obj_id⟩, some (set_relation u relation (rel ++ [obj_id])))
      else if method ∈ DEL_METHODS ∧ obj_id ∈ rel then
        (⟨.s204, none⟩, some (set_relation u relation (rel.filter (fun x => x ≠ obj_id))))
      else
        (⟨.s400, none⟩, some u)
    else
      (⟨.s404, none⟩, some u)

/-- `UserViewSet.subscriptions`: anonymous callers get 401, otherwise
the user's subscription list is paginated and serialized (modelled by
the list of subscribed author ids). -/
def subscriptions (user : Option UserR) : Option (List Nat) :=
  match user with
  | none => none
  | some u => some u.subscribe

/-- An ingredient row: id and name (`measurement_unit` is irrelevant
to the search endpoint and omitted there; see `AmountIngredient` for
the export). -/
structure Ingredient where
  id : Nat
  name : String
deriving DecidableEq, Repr

/-- Modelled from the spec: `services.incorrect_layout` is not under
src/.  The fixed keyboard-layout substitution table: a Latin letter
typed on a QWERTY keyboard is replaced by the Cyrillic letter on the
same key of the standard Russian layout (both cases); every other
character is left unchanged, as `str.translate` does for characters
absent from the table. -/
def incorrect_layout : Char → Char
  | 'q' => 'й' | 'w' => 'ц' | 'e' => 'у' | 'r' => 'к' | 't' => 'е'
  | 'y' => 'н' | 'u' => 'г' | 'i' => 'ш' | 'o' => 'щ' | 'p' => 'з'
  | 'a' => 'ф' | 's' => 'ы' | 'd' => 'в' | 'f' => 'а' | 'g' => 'п'
  | 'h' => 'р' | 'j' => 'о' | 'k' => 'л' | 'l' => 'д'
  | 'z' => 'я' | 'x' => 'ч' | 'c' => 'с' | 'v' => 'м' | 'b' => 'и'
  | 'n' => 'т' | 'm' => 'ь'
  | 'Q' => 'Й' | 'W' => 'Ц' | 'E' => 'У' | 'R' => 'К' | 'T' => 'Е'
  | 'Y' => 'Н' | 'U' => 'Г' | 'I' => 'Ш' | 'O' => 'Щ' | 'P' => 'З'
  | 'A' => 'Ф' | 'S' => 'Ы' | 'D' => 'В' | 'F' => 'А' | 'G' => 'П'
  | 'H' => 'Р' | 'J' => 'О' | 'K' => 'Л' | 'L' => 'Д'
  | 'Z' => 'Я' | 'X' => 'Ч' | 'C' => 'С' | 'V' => 'М' | 'B' => 'И'
  | 'N' => 'Т' | 'M' => 'Ь'
  | c => c

/-- `str.translate(table)`: apply the substitution characterwise. -/
def pyTranslate (table : Char → Char) (s : String) : String :=
  s.map table

/-- Modelled from the spec: Python `str.lower()` (an external builtin)
restricted to the character ranges the data uses — ASCII Latin and
Cyrillic (А..Я and Ё); other characters are unchanged. -/
def pyLower1 (c : Char) : Char :=
  if 'A' ≤ c ∧ c ≤ 'Z' then Char.ofNat (c.toNat + 32)
  else if 'А' ≤ c ∧ c ≤ 'Я' then Char.ofNat (c.toNat + 32)
  else if c = 'Ё' then 'ё'
  else c

/-- Characterwise lowercasing of a whole string. -/
def pyLower (s : String) : String :=
  s.map pyLower1

/-- UTF-8 encoding of one character, as its list of byte values. -/
def utf8EncodeChar (c : Char) : List Nat :=
  let n := c.toNat
  if n < 0x80 then [n]
  else if n < 0x800 then [0xC0 + n / 64, 0x80 + n % 64]
  else if n < 0x10000 then
    [0xE0 + n / 4096, 0x80 + n / 64 % 64, 0x80 + n % 64]
  else
    [0xF0 + n / 262144, 0x80 + n / 4096 % 64, 0x80 + n / 64 % 64, 0x80 + n % 64]

/-- Value of one hexadecimal digit, `none` for other characters. -/
def hexDigit (c : Char) : Option Nat :=
  if '0' ≤ c ∧ c ≤ '9' then some (c.toNat - '0'.toNat)
  else if 'a' ≤ c ∧ c ≤ 'f' then some (c.toNat - 'a'.toNat + 10)
  else if 'A' ≤ c ∧ c ≤ 'F' then some (c.toNat - 'A'.toNat + 10)
  else none

/-- Modelled from the spec: percent-decoding to bytes, the byte phase
of `urllib.parse.unquote` (an external stdlib function).  A valid
`%XX` escape becomes the byte `XX`; an invalid escape leaves the `%`
literal, and every other character contributes its UTF-8 bytes. -/
def unquoteBytes : List Char → List Nat
  | [] => []
  | '%' :: a :: b :: rest =>
    match hexDigit a, hexDigit b with
    | some x, some y => (16 * x + y) :: unquoteBytes rest
    | _, _ => utf8EncodeChar '%' ++ unquoteBytes (a :: b :: rest)
  | c :: rest => utf8EncodeChar c ++ unquoteBytes rest

/-- UTF-8 decoding state machine: `acc` is the partially assembled
code point and `k` the number of continuation bytes still expected; an
ill-formed byte becomes U+FFFD as Python's `errors="replace"` does. -/
def utf8DecodeCore : List Nat → Nat → Nat → List Char
  | [], _, 0 => []
  | [], _, _ + 1 => ['�']
  | b :: rest, _, 0 =>
    if b < 0x80 then Char.ofNat b :: utf8DecodeCore rest 0 0
    else if b < 0xC0 then '�' :: utf8DecodeCore rest 0 0
    else if b < 0xE0 then utf8DecodeCore rest (b - 0xC0) 1
    else if b < 0xF0 then utf8DecodeCore rest (b - 0xE0) 2
    else if b < 0xF8 then utf8DecodeCore rest (b - 0xF0) 3
    else '�' :: utf8DecodeCore rest 0 0
  | b :: rest, acc, k + 1 =>
    if 0x80 ≤ b ∧ b < 0xC0 then
      if k = 0 then Char.ofNat (acc * 64 + (b - 0x80)) :: utf8DecodeCore rest 0 0
      else utf8DecodeCore rest (acc * 64 + (b - 0x80)) k
    else '�' :: utf8DecodeCore (b :: rest) 0 0

/-- Modelled from the spec: `urllib.parse.unquote` — percent-decode,
then decode the byte sequence as UTF-8. -/
def unquote (s : String) : String :=
  String.mk (utf8DecodeCore (unquoteBytes s.toList) 0 0)

/-- Django `name__startswith`: the name starts with the query. -/
def strStartsWith (s q : String) : Bool :=
  q.toList.isPrefixOf s.toList

/-- Occurrence of `sub` as a contiguous run inside `l`. -/
def hasSubList (sub : List Char) : List Char → Bool
  | [] => sub.isEmpty
  | c :: t => sub.isPrefixOf (c :: t) || hasSubList sub t

/-- Django `name__contains`: the query occurs inside the name. -/
def strHasSub (s q : String) : Bool :=
  hasSubList q.toList s.toList

/-- Lines 105–110 of views.py: the prefix matches in their queryset
order, extended by the substring matches not already listed
(`i not in stw_queryset` compares rows). -/
def searchRank (queryset : List Ingredient) (n : String) : List Ingredient :=
  let stw_queryset := queryset.filter (fun i => strStartsWith i.name n)
  let cnt_queryset := queryset.filter (fun i => strHasSub i.name n)
  stw_queryset ++ cnt_queryset.filter (fun i => decide (i ∉ stw_queryset))

namespace IngredientViewSet

/-- `IngredientViewSet.get_queryset`: `name` is the raw value of the
search query parameter (`none` when absent); an empty string is falsy
in Python, so both give back the unfiltered queryset.  A query whose
first character is `%` is URL-decoded, any other query goes through
the layout table; the result is lowercased and ranked. -/
def get_queryset (name : Option String) (queryset : List Ingredient) :
    List Ingredient :=
  match name with
  | none => queryset
  | some n =>
    if n = "" then queryset
    else
      let n1 := if n.front = '%' then unquote n else pyTranslate incorrect_layout n
      let n2 := pyLower n1
      searchRank queryset n2

end IngredientViewSet

/-- First-occurrence de-duplication: the list model of the SQL
`DISTINCT` applied by `.distinct()` and of the key set of a `GROUP BY`. -/
def dedupFirst {α : Type} [DecidableEq α] : List α → List α
  | [] => []
  | a :: t => a :: dedupFirst (t.filter (fun b => decide (b ≠ a)))
termination_by l => l.length
decreasing_by
  simp only [List.length_cons]
  exact Nat.lt_succ_of_le (List.length_filter_le _ _)

/-- A recipe row: id, author id, tag slugs, and the reverse sides of
the two user relations (`favorite` and `cart` hold the ids of the
users that favorited / carted the recipe, which is what
`filter(favorite=user.id)` and `filter(cart=user.id)` join on). -/
structure Recipe where
  id : Nat
  author : Nat
  tags : List String
  favorite : List Nat
  cart : List Nat
deriving DecidableEq, Repr

/-- Modelled from the spec: `conf.SYMBOL_TRUE_SEARCH` is not under
src/; the truthy symbol set for the boolean query parameters. -/
def SYMBOL_TRUE_SEARCH : List String := ["1", "true"]

/-- Modelled from the spec: `conf.SYMBOL_FALSE_SEARCH` is not under
src/; the falsy symbol set for the boolean query parameters. -/
def SYMBOL_FALSE_SEARCH : List String := ["0", "false"]

/-- Python `value in symbols` where `value` may be `None` (parameter
absent): `None` is in neither symbol set. -/
def optMem (v : Option String) (symbols : List String) : Bool :=
  match v with
  | none => false
  | some s => s ∈ symbols

/-- `queryset.filter(tags__slug__in=tags).distinct()`: the relational
join emits one row per matching (recipe, tag) pair — a recipe appears
once per matching slug — and `DISTINCT` collapses the copies. -/
def filterTags (queryset : List Recipe) (tags : List String) : List Recipe :=
  dedupFirst (queryset.flatMap
    (fun r => (r.tags.filter (fun t => decide (t ∈ tags))).map (fun _ => r)))

/-- Lines 146–150 of views.py: the shopping-cart parameter — `filter`
on a truthy symbol, `exclude` on a falsy one, otherwise untouched. -/
def filterCart (u : UserR) (queryset : List Recipe) (v : Option String) :
    List Recipe :=
  if optMem v SYMBOL_TRUE_SEARCH then
    queryset.filter (fun r => decide (u.id ∈ r.cart))
  else if optMem v SYMBOL_FALSE_SEARCH then
    queryset.filter (fun r => decide (u.id ∉ r.cart))
  else queryset

/-- Lines 152–156 of views.py: the favorite parameter; the source uses
two independent `if` statements rather than `if`/`elif`, embedded
as-is. -/
def filterFav (u : UserR) (queryset : List Recipe) (v : Option String) :
    List Recipe :=
  let q1 :=
    if optMem v SYMBOL_TRUE_SEARCH then
      queryset.filter (fun r => decide (u.id ∈ r.favorite))
    else queryset
  if optMem v SYMBOL_FALSE_SEARCH then
    q1.filter (fun r => decide (u.id ∉ r.favorite))
  else q1

namespace RecipeViewSet

/-- `RecipeViewSet.get_queryset`: tag filter (empty `tags` list is
falsy), author filter, then — only for an authenticated user — the
shopping-cart and favorite filters; an anonymous request returns right
after the author filter. -/
def get_queryset (queryset : List Recipe) (tags : List String)
    (author : Option Nat) (user : Option UserR)
    (is_in_shopping is_favorited : Option String) : List Recipe :=
  let q1 := if tags = [] then queryset else filterTags queryset tags
  let q2 :=
    match author with
    | none => q1
    | some a => q1.filter (fun r => decide (r.author = a))
  match user with
  | none => q2
  | some u => filterFav u (filterCart u q2 is_in_shopping) is_favorited

end RecipeViewSet

/-- An `AmountIngredient` row joined with its ingredient, as the
export query reads it: owning recipe id, `ingredients__name`,
`ingredients__measurement_unit`, and the amount. -/
structure AmountIngredient where
  recipe : Nat
  name : String
  measure : String
  amount : Nat
deriving DecidableEq, Repr

/-- The `values(ingredient, measure).annotate(amount=Sum('amount'))`
aggregation: one output triple per distinct (name, unit) key, carrying
the sum of the amounts of the rows with that key; keys appear in
first-occurrence order. -/
def aggregate (ings : List AmountIngredient) :
    List (String × String × Nat) :=
  (dedupFirst (ings.map (fun e => (e.name, e.measure)))).map
    (fun k => (k.1, k.2,
      ((ings.filter (fun e => decide ((e.name, e.measure) = k))).map
        (fun e => e.amount)).sum))

/-- Outcome of `download_shopping_cart`.  `attrError` models the
`AttributeError` raised when the handler evaluates `user.carts` on an
anonymous user — an unguarded internal failure, not an HTTP response.
`file` carries the written header, the per-ingredient lines (each
written with a trailing newline in the source), and the footer. -/
inductive DownloadResult where
  | attrError
  | badRequest
  | file (header : String) (lines : List String) (footer : String)
deriving DecidableEq, Repr

namespace RecipeViewSet

/-- `RecipeViewSet.download_shopping_cart`: no authentication guard —
the handler dereferences `user.carts` immediately, so an anonymous
caller hits `attrError`.  An authenticated user with an empty cart
gets 400; otherwise the `AmountIngredient` rows of the carted recipes
are aggregated and rendered one line per (name, unit) group.  `now`
stands for the formatted `dt.now()` timestamp. -/
def download_shopping_cart (user : Option UserR)
    (amounts : List AmountIngredient) (now : String) : DownloadResult :=
  match user with
  | none => .attrError
  | some u =>
    if u.carts.isEmpty then .badRequest
    else
      let ingredients :=
        aggregate (amounts.filter (fun e => decide (e.recipe ∈ u.carts)))
      .file
        ("Список покупок для:\n\n" ++ u.first_name ++ "\n\n" ++ now ++ "\n\n")
        (ingredients.map (fun g => g.1 ++ ": " ++ toString g.2.2 ++ " " ++ g.2.1))
        "\nПосчитано в Foodgram.ml\n"

end RecipeViewSet

section ToggleLemmas

lemma get_set_relation_self (u : UserR) (k : RelationKey) (l : List Nat) :
    _get_relation (set_relation u k l) k = l := by
  cases k <;> rfl

lemma get_set_relation_other (u : UserR) (k k' : RelationKey) (l : List Nat)
    (h : k' ≠ k) : _get_relation (set_relation u k l) k' = _get_relation u k' := by
  cases k <;> cases k' <;> first | rfl | exact absurd rfl h

lemma set_relation_id (u : UserR) (k : RelationKey) (l : List Nat) :
    (set_relation u k l).id = u.id := by
  cases k <;> rfl

lemma set_relation_first_name (u : UserR) (k : RelationKey) (l : List Nat) :
    (set_relation u k l).first_name = u.first_name := by
  cases k <;> rfl

lemma set_relation_get (u : UserR) (k : RelationKey) :
    set_relation u k (_get_relation u k) = u := by
  cases k <;> rfl

lemma set_relation_set_relation (u : UserR) (k : RelationKey)
    (l1 l2 : List Nat) :
    set_relation (set_relation u k l1) k l2 = set_relation u k l2 := by
  cases k <;> rfl

lemma add_not_del {method : String} (h : method ∈ ADD_METHODS) :
    method ∉ DEL_METHODS := by
  simp only [ADD_METHODS, List.mem_singleton] at h
  subst h
  decide

lemma del_not_add {method : String} (h : method ∈ DEL_METHODS) :
    method ∉ ADD_METHODS := by
  simp only [DEL_METHODS, List.mem_singleton] at h
  subst h
  decide

end ToggleLemmas

/-- C1: toggle contract — for an authenticated caller and an object id
present in the base collection, an addition method on a non-member
inserts the object and returns 201 with the serialized object; a
removal method on a member removes it and returns 204; the two
remaining method/membership combinations return 400. -/
theorem add_del_obj_toggle_contract (method : String) (u : UserR)
    (queryset : List Nat) (obj_id : Nat) (relation : RelationKey)
    (hin : obj_id ∈ queryset) :
    (method ∈ ADD_METHODS → obj_id ∉ _get_relation u relation →
      add_del_obj method (some u) queryset obj_id relation =
        (⟨Status.s201, some obj_id⟩,
         some (set_relation u relation (_get_relation u relation ++ [obj_id])))) ∧
    (method ∈ DEL_METHODS → obj_id ∈ _get_relation u relation →
      add_del_obj method (some u) queryset obj_id relation =
        (⟨Status.s204, none⟩,
         some (set_relation u relation
           ((_get_relation u relation).filter (fun x => x ≠ obj_id))))) ∧
    ((method ∈ ADD_METHODS ∧ obj_id ∈ _get_relation u relation) ∨
     (method ∈ DEL_METHODS ∧ obj_id ∉ _get_relation u relation) →
      add_del_obj method (some u) queryset obj_id relation =
        (⟨Status.s400, none⟩, some u)) := by
  refine ⟨?_, ?_, ?_⟩
  · intro hA hN
    simp [add_del_obj, hin, hA, hN]
  · intro hD hM
    simp [add_del_obj, hin, hD, hM, del_not_add hD]
  · rintro (⟨hA, hM⟩ | ⟨hD, hN⟩)
    · simp [add_del_obj, hin, hA, hM, add_not_del hA]
    · simp [add_del_obj, hin, hD, hN, del_not_add hD]

/-- Witness for C1: a concrete successful addition. -/
theorem add_del_obj_toggle_contract_witness :
    add_del_obj "POST" (some ⟨0, "u", [], [], []⟩) [1] 1
      RelationKey.FAVORITE_M2M =
      (⟨Status.s201, some 1⟩, some ⟨0, "u", [], [1], []⟩) := by
  have h := (add_del_obj_toggle_contract "POST" ⟨0, "u", [], [], []⟩ [1] 1
    RelationKey.FAVORITE_M2M (by decide)).1 (by decide) (by decide)
  exact h

/-- C2 counterexample: with the object already a member before the
add, toggle(add) leaves the state unchanged (400) and toggle(remove)
then removes the object, so the final membership differs from the
pre-add one: the law as stated fails at this input. -/
def memberUser : UserR := ⟨0, "u", [], [1], []⟩

/-- C2 counterexample theorem: concrete run refuting the unconditional
idempotence law. -/
theorem add_then_del_changes_member_state :
    1 ∈ memberUser.favorites ∧
    (add_del_obj "DELETE"
        (add_del_obj "POST" (some memberUser) [1] 1 RelationKey.FAVORITE_M2M).2
        [1] 1 RelationKey.FAVORITE_M2M).2 =
      some { memberUser with favorites := [] } ∧
    1 ∉ ({ memberUser with favorites := [] } : UserR).favorites := by
  decide

/-- C2 amended: toggle(add) followed by toggle(remove) restores the
user's state (in particular the object's membership) to its pre-add
state, provided the object was not already a member before the add. -/
theorem add_then_del_restores (m1 m2 : String) (u : UserR)
    (queryset : List Nat) (obj_id : Nat) (relation : RelationKey)
    (h1 : m1 ∈ ADD_METHODS) (h2 : m2 ∈ DEL_METHODS)
    (hq : obj_id ∈ queryset) (hN : obj_id ∉ _get_relation u relation) :
    (add_del_obj m2 (add_del_obj m1 (some u) queryset obj_id relation).2
      queryset obj_id relation).2 = some u := by
  have heq1 : (add_del_obj m1 (some u) queryset obj_id relation).2 =
      some (set_relation u relation (_get_relation u relation ++ [obj_id])) := by
    simp [add_del_obj, hq, h1, hN]
  rw [heq1]
  simp only [add_del_obj, hq, if_true]
  rw [get_set_relation_self]
  have hnotadd : ¬ (m2 ∈ ADD_METHODS ∧
      obj_id ∉ _get_relation u relation ++ [obj_id]) := by
    intro h
    exact del_not_add h2 h.1
  have hdel : m2 ∈ DEL_METHODS ∧ obj_id ∈ _get_relation u relation ++ [obj_id] :=
    ⟨h2, by simp⟩
  rw [if_neg hnotadd, if_pos hdel]
  simp only [Option.some.injEq]
  rw [set_relation_set_relation, List.filter_append]
  have hself : (_get_relation u relation).filter (fun x => decide (x ≠ obj_id)) =
      _get_relation u relation := by
    apply List.filter_eq_self.mpr
    intro a ha
    have hne : a ≠ obj_id := fun hc => hN (hc ▸ ha)
    simp [hne]
  rw [hself]
  simp only [List.filter_cons, List.filter_nil]
  norm_num
  exact set_relation_get u relation

/-- Witness for the amended C2: a concrete add-then-remove round trip
from a non-member state. -/
theorem add_then_del_restores_witness :
    (add_del_obj "DELETE"
        (add_del_obj "POST" (some ⟨0, "u", [], [], []⟩) [1] 1
          RelationKey.FAVORITE_M2M).2
        [1] 1 RelationKey.FAVORITE_M2M).2 = some ⟨0, "u", [], [], []⟩ :=
  add_then_del_restores "POST" "DELETE" ⟨0, "u", [], [], []⟩ [1] 1
    RelationKey.FAVORITE_M2M (by decide) (by decide) (by decide) (by decide)

/-- C8: toggle precondition failures — an anonymous caller gets 401
and no state, an authenticated caller with an object id outside the
base collection gets 404 and an unchanged state. -/
theorem add_del_obj_precondition_failures (method : String)
    (queryset : List Nat) (obj_id : Nat) (relation : RelationKey) :
    (add_del_obj method none queryset obj_id relation =
      (⟨Status.s401, none⟩, none)) ∧
    (∀ u : UserR, obj_id ∉ queryset →
      add_del_obj method (some u) queryset obj_id relation =
        (⟨Status.s404, none⟩, some u)) := by
  refine ⟨rfl, ?_⟩
  intro u hout
  simp [add_del_obj, hout]

/-- Witness for C8: both failure branches at concrete inputs. -/
theorem add_del_obj_precondition_failures_witness :
    (add_del_obj "POST" none [5] 1 RelationKey.FAVORITE_M2M =
      (⟨Status.s401, none⟩, none)) ∧
    (add_del_obj "POST" (some ⟨0, "u", [], [], []⟩) [5] 9
        RelationKey.FAVORITE_M2M =
      (⟨Status.s404, none⟩, some ⟨0, "u", [], [], []⟩)) :=
  ⟨(add_del_obj_precondition_failures "POST" [5] 1 RelationKey.FAVORITE_M2M).1,
   (add_del_obj_precondition_failures "POST" [5] 9 RelationKey.FAVORITE_M2M).2
     ⟨0, "u", [], [], []⟩ (by decide)⟩

/-- C9: frame and atomicity — an anonymous call carries no state; for
an authenticated call the post-state keeps the user's id and name, the
two unselected relations are untouched, a successful toggle (201/204)
changes the selected relation, and any failure (400/404) leaves the
whole user state exactly as it was. -/
theorem add_del_obj_frame (method : String) (queryset : List Nat)
    (obj_id : Nat) (relation : RelationKey) :
    ((add_del_obj method none queryset obj_id relation).2 = none) ∧
    ∀ u : UserR, ∃ u' : UserR,
      (add_del_obj method (some u) queryset obj_id relation).2 = some u' ∧
      u'.id = u.id ∧ u'.first_name = u.first_name ∧
      (∀ k : RelationKey, k ≠ relation →
        _get_relation u' k = _get_relation u k) ∧
      ((add_del_obj method (some u) queryset obj_id relation).1.status =
          Status.s201 ∨
       (add_del_obj method (some u) queryset obj_id relation).1.status =
          Status.s204 →
        _get_relation u' relation ≠ _get_relation u relation) ∧
      ((add_del_obj method (some u) queryset obj_id relation).1.status =
          Status.s400 ∨
       (add_del_obj method (some u) queryset obj_id relation).1.status =
          Status.s404 →
        u' = u) := by
  refine ⟨rfl, ?_⟩
  intro u
  by_cases hq : obj_id ∈ queryset
  · by_cases h1 : method ∈ ADD_METHODS ∧ obj_id ∉ _get_relation u relation
    · have heq : add_del_obj method (some u) queryset obj_id relation =
          (⟨Status.s201, some obj_id⟩,
           some (set_relation u relation (_get_relation u relation ++ [obj_id]))) := by
        simp [add_del_obj, hq, h1.1, h1.2]
      refine ⟨set_relation u relation (_get_relation u relation ++ [obj_id]),
        by rw [heq], set_relation_id .., set_relation_first_name ..,
        fun k hk => get_set_relation_other u relation k _ hk, ?_, ?_⟩
      · intro _
        rw [get_set_relation_self]
        intro hEq
        have := congrArg List.length hEq
        simp at this
      · rw [heq]
        intro hst
        simp at hst
    · by_cases h2 : method ∈ DEL_METHODS ∧ obj_id ∈ _get_relation u relation
      · have heq : add_del_obj method (some u) queryset obj_id relation =
            (⟨Status.s204, none⟩,
             some (set_relation u relation
               ((_get_relation u relation).filter (fun x => x ≠ obj_id)))) := by
          simp [add_del_obj, hq, h1, h2.1, h2.2]
        refine ⟨set_relation u relation
            ((_get_relation u relation).filter (fun x => x ≠ obj_id)),
          by rw [heq], set_relation_id .., set_relation_first_name ..,
          fun k hk => get_set_relation_other u relation k _ hk, ?_, ?_⟩
        · intro _
          rw [get_set_relation_self]
          intro hEq
          have hmem := h2.2
          rw [← hEq] at hmem
          simp at hmem
        · rw [heq]
          intro hst
          simp at hst
      · have heq : add_del_obj method (some u) queryset obj_id relation =
            (⟨Status.s400, none⟩, some u) := by
          simp [add_del_obj, hq, h1, h2]
        refine ⟨u, by rw [heq], rfl, rfl, fun _ _ => rfl, ?_, fun _ => rfl⟩
        rw [heq]
        intro hst
        simp at hst
  · have heq : add_del_obj method (some u) queryset obj_id relation =
        (⟨Status.s404, none⟩, some u) := by
      simp [add_del_obj, hq]
    refine ⟨u, by rw [heq], rfl, rfl, fun _ _ => rfl, ?_, fun _ => rfl⟩
    rw [heq]
    intro hst
    simp at hst

/-- Witness for C9: the frame property instantiated at a concrete
successful addition. -/
theorem add_del_obj_frame_witness :
    ∃ u' : UserR,
      (add_del_obj "POST" (some ⟨0, "u", [], [], []⟩) [1] 1
        RelationKey.FAVORITE_M2M).2 = some u' ∧
      u'.id = (⟨0, "u", [], [], []⟩ : UserR).id ∧
      u'.first_name = (⟨0, "u", [], [], []⟩ : UserR).first_name ∧
      (∀ k : RelationKey, k ≠ RelationKey.FAVORITE_M2M →
        _get_relation u' k = _get_relation ⟨0, "u", [], [], []⟩ k) ∧
      ((add_del_obj "POST" (some ⟨0, "u", [], [], []⟩) [1] 1
          RelationKey.FAVORITE_M2M).1.status = Status.s201 ∨
       (add_del_obj "POST" (some ⟨0, "u", [], [], []⟩) [1] 1
          RelationKey.FAVORITE_M2M).1.status = Status.s204 →
        _get_relation u' RelationKey.FAVORITE_M2M ≠
          _get_relation ⟨0, "u", [], [], []⟩ RelationKey.FAVORITE_M2M) ∧
      ((add_del_obj "POST" (some ⟨0, "u", [], [], []⟩) [1] 1
          RelationKey.FAVORITE_M2M).1.status = Status.s400 ∨
       (add_del_obj "POST" (some ⟨0, "u", [], [], []⟩) [1] 1
          RelationKey.FAVORITE_M2M).1.status = Status.s404 →
        u' = ⟨0, "u", [], [], []⟩) :=
  (add_del_obj_frame "POST" [1] 1 RelationKey.FAVORITE_M2M).2
    ⟨0, "u", [], [], []⟩

/-- C3: ingredient search normalization — an absent or empty query
returns the unfiltered collection; a query whose first character is a
literal percent sign is URL-decoded, any other query goes through the
keyboard-layout substitution table; the result is lowercased before
the ranking match. -/
theorem ingredient_search_normalization (queryset : List Ingredient) :
    (IngredientViewSet.get_queryset none queryset = queryset) ∧
    (IngredientViewSet.get_queryset (some "") queryset = queryset) ∧
    (∀ n : String, n ≠ "" → n.front = '%' →
      IngredientViewSet.get_queryset (some n) queryset =
        searchRank queryset (pyLower (unquote n))) ∧
    (∀ n : String, n ≠ "" → n.front ≠ '%' →
      IngredientViewSet.get_queryset (some n) queryset =
        searchRank queryset (pyLower (pyTranslate incorrect_layout n))) := by
  refine ⟨rfl, rfl, ?_, ?_⟩
  · intro n hne hpc
    simp [IngredientViewSet.get_queryset, hne, hpc]
  · intro n hne hpc
    simp [IngredientViewSet.get_queryset, hne, hpc]

/-- Witness for C3: the percent-encoded and the layout-mismatch
branches at concrete queries. -/
theorem ingredient_search_normalization_witness :
    (IngredientViewSet.get_queryset (some "%D0%B0") [⟨1, "апельсин"⟩] =
      searchRank [⟨1, "апельсин"⟩] (pyLower (unquote "%D0%B0"))) ∧
    (IngredientViewSet.get_queryset (some "Fgtkmcby") [⟨1, "апельсин"⟩] =
      searchRank [⟨1, "апельсин"⟩]
        (pyLower (pyTranslate incorrect_layout "Fgtkmcby"))) :=
  ⟨(ingredient_search_normalization [⟨1, "апельсин"⟩]).2.2.1 "%D0%B0"
      (by decide) (by decide),
   (ingredient_search_normalization [⟨1, "апельсин"⟩]).2.2.2 "Fgtkmcby"
      (by decide) (by decide)⟩

/-- C4: ingredient search ranking — the result is the prefix matches
in queryset order followed by the substring matches that are not
prefix matches, again in queryset order, with no duplicates from the
first group; on ["апельсин", "свежий апельсин", "мандарин"] and query
"апельсин" the order is ["апельсин", "свежий апельсин"]. -/
theorem ingredient_search_ranking (queryset : List Ingredient) (n : String) :
    (searchRank queryset n =
      queryset.filter (fun i => strStartsWith i.name n) ++
      queryset.filter (fun i => strHasSub i.name n && ! strStartsWith i.name n)) ∧
    searchRank [⟨1, "апельсин"⟩, ⟨2, "свежий апельсин"⟩, ⟨3, "мандарин"⟩]
        "апельсин" = [⟨1, "апельсин"⟩, ⟨2, "свежий апельсин"⟩] := by
  constructor
  · simp only [searchRank]
    congr 1
    rw [List.filter_filter]
    apply List.filter_congr
    intro i hi
    by_cases hs : strStartsWith i.name n
    · have hmem : i ∈ queryset.filter (fun j => strStartsWith j.name n) :=
        List.mem_filter.mpr ⟨hi, hs⟩
      simp [hmem, hs]
    · have hmem : i ∉ queryset.filter (fun j => strStartsWith j.name n) := by
        intro hc
        exact hs (List.mem_filter.mp hc).2
      simp [hmem, hs, Bool.and_comm]
  · decide

/-- C5: recipe filter authentication gating and boolean-parameter
semantics — for an anonymous caller the shopping-cart and favorite
parameters are silently ignored; for an authenticated user a truthy
symbol restricts to the user's cart/favorites, a falsy symbol excludes
them, any other or absent value leaves the filter unapplied; the
authenticated pipeline factors through the two parameter filters. -/
theorem recipe_filter_auth_and_bool_params :
    (∀ (queryset : List Recipe) (tags : List String) (author : Option Nat)
        (shop fav : Option String),
      RecipeViewSet.get_queryset queryset tags author none shop fav =
        RecipeViewSet.get_queryset queryset tags author none none none) ∧
    (∀ (u : UserR) (queryset : List Recipe) (v : String),
      v ∈ SYMBOL_TRUE_SEARCH →
      filterCart u queryset (some v) =
          queryset.filter (fun r => decide (u.id ∈ r.cart)) ∧
        filterFav u queryset (some v) =
          queryset.filter (fun r => decide (u.id ∈ r.favorite))) ∧
    (∀ (u : UserR) (queryset : List Recipe) (v : String),
      v ∈ SYMBOL_FALSE_SEARCH →
      filterCart u queryset (some v) =
          queryset.filter (fun r => decide (u.id ∉ r.cart)) ∧
        filterFav u queryset (some v) =
          queryset.filter (fun r => decide (u.id ∉ r.favorite))) ∧
    (∀ (u : UserR) (queryset : List Recipe) (v : String),
      v ∉ SYMBOL_TRUE_SEARCH → v ∉ SYMBOL_FALSE_SEARCH →
      filterCart u queryset (some v) = queryset ∧
        filterFav u queryset (some v) = queryset) ∧
    (∀ (u : UserR) (queryset : List Recipe),
      filterCart u queryset none = queryset ∧
        filterFav u queryset none = queryset) ∧
    (∀ (queryset : List Recipe) (tags : List String) (author : Option Nat)
        (u : UserR) (shop fav : Option String),
      RecipeViewSet.get_queryset queryset tags author (some u) shop fav =
        filterFav u
          (filterCart u
            (RecipeViewSet.get_queryset queryset tags author none none none)
            shop)
          fav) := by
  refine ⟨fun _ _ _ _ _ => rfl, ?_, ?_, ?_, fun _ _ => ⟨rfl, rfl⟩,
    fun _ _ _ _ _ _ => rfl⟩
  · intro u queryset v hv
    have hnf : v ∉ SYMBOL_FALSE_SEARCH := by
      simp only [SYMBOL_TRUE_SEARCH, List.mem_cons, List.mem_singleton,
        List.not_mem_nil, or_false] at hv
      rcases hv with rfl | rfl <;> decide
    constructor
    · simp [filterCart, optMem, hv]
    · simp [filterFav, optMem, hv, hnf]
  · intro u queryset v hv
    have hnt : v ∉ SYMBOL_TRUE_SEARCH := by
      simp only [SYMBOL_FALSE_SEARCH, List.mem_cons, List.mem_singleton,
        List.not_mem_nil, or_false] at hv
      rcases hv with rfl | rfl <;> decide
    constructor
    · simp [filterCart, optMem, hv, hnt]
    · simp [filterFav, optMem, hv, hnt]
  · intro u queryset v hnt hnf
    constructor
    · simp [filterCart, optMem, hnt, hnf]
    · simp [filterFav, optMem, hnt, hnf]

section DedupLemmas

lemma mem_dedupFirst {α : Type} [DecidableEq α] (x : α) (l : List α) :
    x ∈ dedupFirst l ↔ x ∈ l := by
  induction l using dedupFirst.induct with
  | case1 => simp [dedupFirst]
  | case2 a t ih =>
    rw [dedupFirst]
    by_cases hx : x = a
    · subst hx
      simp
    · simp only [List.mem_cons, hx, false_or]
      rw [ih, List.mem_filter]
      simp [hx]

lemma nodup_dedupFirst {α : Type} [DecidableEq α] (l : List α) :
    (dedupFirst l).Nodup := by
  induction l using dedupFirst.induct with
  | case1 => simp [dedupFirst]
  | case2 a t ih =>
    rw [dedupFirst]
    refine List.nodup_cons.mpr ⟨?_, ih⟩
    intro hmem
    rw [mem_dedupFirst, List.mem_filter] at hmem
    simp at hmem

lemma mem_of_mem_flatMap_consts {α β : Type} (t : List α) (f : α → List β)
    (x : α) (hx : x ∈ t.flatMap (fun a => (f a).map (fun _ => a))) : x ∈ t := by
  rw [List.mem_flatMap] at hx
  obtain ⟨c, hc, hxc⟩ := hx
  rw [List.mem_map] at hxc
  obtain ⟨_, _, rfl⟩ := hxc
  exact hc

lemma dedupFirst_flatMap_consts {α β : Type} [DecidableEq α]
    (l : List α) (f : α → List β) (hl : l.Nodup) :
    dedupFirst (l.flatMap (fun a => (f a).map (fun _ => a))) =
      l.filter (fun a => ! (f a).isEmpty) := by
  induction l with
  | nil => simp [dedupFirst]
  | cons a t ih =>
    rw [List.nodup_cons] at hl
    rw [List.flatMap_cons]
    rcases hfa : f a with _ | ⟨b, bs⟩
    · simp only [List.map_nil, List.nil_append]
      rw [ih hl.2]
      rw [List.filter_cons]
      simp [hfa]
    · simp only [List.map_cons, List.cons_append]
      rw [dedupFirst]
      rw [List.filter_append]
      have h1 : (bs.map (fun _ => a)).filter (fun x => decide (x ≠ a)) = [] := by
        rw [List.filter_eq_nil_iff]
        intro x hx
        rw [List.mem_map] at hx
        obtain ⟨_, _, rfl⟩ := hx
        simp
      have h2 : (t.flatMap (fun c => (f c).map (fun _ => c))).filter
          (fun x => decide (x ≠ a)) =
          t.flatMap (fun c => (f c).map (fun _ => c)) := by
        rw [List.filter_eq_self]
        intro x hx
        have hxt := mem_of_mem_flatMap_consts t f x hx
        have : x ≠ a := fun hc => hl.1 (hc ▸ hxt)
        simp [this]
      rw [h1, h2, List.nil_append, ih hl.2, List.filter_cons]
      simp [hfa]

lemma not_isEmpty_filter {α : Type} (l : List α) (p : α → Bool) :
    (!(l.filter p).isEmpty) = l.any p := by
  induction l with
  | nil => rfl
  | cons a t ih =>
    rw [List.filter_cons, List.any_cons]
    cases hpa : p a <;> simp [hpa, ← ih]

end DedupLemmas

/-- C6: recipe tag filtering — with a duplicate-free base collection,
the tag filter keeps exactly the recipes having at least one of the
given slugs (union across tags), the result is duplicate-free, and the
tag filter composes conjunctively with the author, shopping-cart and
favorite filters. -/
theorem recipe_tag_filter_union (queryset : List Recipe) (tags : List String)
    (hnd : queryset.Nodup) :
    (filterTags queryset tags =
      queryset.filter (fun r => r.tags.any (fun t => decide (t ∈ tags)))) ∧
    (filterTags queryset tags).Nodup ∧
    (∀ x : Recipe, x ∈ filterTags queryset tags ↔
      x ∈ queryset ∧ ∃ t ∈ x.tags, t ∈ tags) ∧
    (∀ (a : Nat) (u : UserR) (vs vf : String),
      vs ∈ SYMBOL_TRUE_SEARCH → vf ∈ SYMBOL_TRUE_SEARCH → tags ≠ [] →
      RecipeViewSet.get_queryset queryset tags (some a) (some u) (some vs)
          (some vf) =
        queryset.filter (fun r =>
          decide (u.id ∈ r.favorite) && (decide (u.id ∈ r.cart) &&
            (decide (r.author = a) &&
              r.tags.any (fun t => decide (t ∈ tags)))))) := by
  have hmain : filterTags queryset tags =
      queryset.filter (fun r => r.tags.any (fun t => decide (t ∈ tags))) := by
    rw [filterTags, dedupFirst_flatMap_consts queryset
      (fun r => r.tags.filter (fun t => decide (t ∈ tags))) hnd]
    apply List.filter_congr
    intro r _
    exact not_isEmpty_filter r.tags (fun t => decide (t ∈ tags))
  refine ⟨hmain, ?_, ?_, ?_⟩
  · rw [filterTags]
    exact nodup_dedupFirst _
  · intro x
    rw [hmain, List.mem_filter]
    simp
  · intro a u vs vf hvs hvf hne
    have hvsf : vs ∉ SYMBOL_FALSE_SEARCH := by
      simp only [SYMBOL_TRUE_SEARCH, List.mem_cons, List.mem_singleton,
        List.not_mem_nil, or_false] at hvs
      rcases hvs with rfl | rfl <;> decide
    have hvff : vf ∉ SYMBOL_FALSE_SEARCH := by
      simp only [SYMBOL_TRUE_SEARCH, List.mem_cons, List.mem_singleton,
        List.not_mem_nil, or_false] at hvf
      rcases hvf with rfl | rfl <;> decide
    simp only [RecipeViewSet.get_queryset, hne, if_false, hmain]
    simp only [filterCart, filterFav, optMem, hvs, hvf, hvsf, hvff]
    simp [List.filter_filter]

/-- Witness for C6: the union and de-duplication at a concrete
two-recipe collection and a two-slug tag list. -/
theorem recipe_tag_filter_union_witness :
    filterTags [⟨1, 1, ["a", "b"], [], []⟩, ⟨2, 2, ["c"], [], []⟩]
        ["a", "b"] =
      List.filter
        (fun r => r.tags.any (fun t => decide (t ∈ (["a", "b"] : List String))))
        [⟨1, 1, ["a", "b"], [], []⟩, ⟨2, 2, ["c"], [], []⟩] :=
  (recipe_tag_filter_union [⟨1, 1, ["a", "b"], [], []⟩, ⟨2, 2, ["c"], [], []⟩]
    ["a", "b"] (by decide)).1

lemma aggregate_keys (es : List AmountIngredient) :
    (aggregate es).map (fun g => (g.1, g.2.1)) =
      dedupFirst (es.map (fun e => (e.name, e.measure))) := by
  rw [aggregate, List.map_map]
  exact List.map_id _

/-- C7: shopping-list export — for an authenticated user the export is
a bad-request failure exactly when the cart is empty; otherwise the
cart's ingredient rows are grouped by (name, unit) with summed amounts
and rendered one line per group; the keys of the aggregation are
exactly the keys of the filtered rows, without repetition, and each
group's amount is the sum over its rows; a cart of two recipes with
(соль, 5, г) and (соль, 3, г) yields the single line "соль: 8 г". -/
theorem download_shopping_cart_export (u : UserR)
    (amounts : List AmountIngredient) (now : String) :
    (RecipeViewSet.download_shopping_cart (some u) amounts now =
        DownloadResult.badRequest ↔ u.carts = []) ∧
    (u.carts ≠ [] →
      RecipeViewSet.download_shopping_cart (some u) amounts now =
        DownloadResult.file
          ("Список покупок для:\n\n" ++ u.first_name ++ "\n\n" ++ now ++ "\n\n")
          ((aggregate (amounts.filter (fun e => decide (e.recipe ∈ u.carts)))).map
            (fun g => g.1 ++ ": " ++ toString g.2.2 ++ " " ++ g.2.1))
          "\nПосчитано в Foodgram.ml\n") ∧
    (∀ es : List AmountIngredient,
      ((aggregate es).map (fun g => (g.1, g.2.1))).Nodup ∧
      (∀ k : String × String,
        k ∈ (aggregate es).map (fun g => (g.1, g.2.1)) ↔
          k ∈ es.map (fun e => (e.name, e.measure))) ∧
      ∀ g ∈ aggregate es, g.2.2 =
        ((es.filter (fun e =>
          decide ((e.name, e.measure) = (g.1, g.2.1)))).map
            (fun e => e.amount)).sum) ∧
    RecipeViewSet.download_shopping_cart (some ⟨7, "Ann", [], [], [10, 11]⟩)
        [⟨10, "соль", "г", 5⟩, ⟨11, "соль", "г", 3⟩] "now" =
      DownloadResult.file "Список покупок для:\n\nAnn\n\nnow\n\n" ["соль: 8 г"]
        "\nПосчитано в Foodgram.ml\n" := by
  refine ⟨?_, ?_, ?_, ?_⟩
  case refine_4 =>
    have hagg : aggregate [⟨10, "соль", "г", 5⟩, ⟨11, "соль", "г", 3⟩] =
        [("соль", "г", 8)] := by
      norm_num [aggregate, dedupFirst, List.filter]
    simp only [RecipeViewSet.download_shopping_cart]
    norm_num [hagg]
    exact ⟨rfl, rfl⟩
  · cases hc : u.carts with
    | nil => simp [RecipeViewSet.download_shopping_cart, hc]
    | cons a t => simp [RecipeViewSet.download_shopping_cart, hc]
  · intro hne
    cases hc : u.carts with
    | nil => exact absurd hc hne
    | cons a t =>
      simp only [RecipeViewSet.download_shopping_cart, hc]
      rfl
  · intro es
    refine ⟨?_, ?_, ?_⟩
    · rw [aggregate_keys]
      exact nodup_dedupFirst _
    · intro k
      rw [aggregate_keys, mem_dedupFirst]
    · intro g hg
      rw [aggregate, List.mem_map] at hg
      obtain ⟨k, _, rfl⟩ := hg
      rfl

/-- C10: download_shopping_cart has no authentication guard — an
anonymous caller does not get the 401 response the toggle and
subscriptions handlers return: the handler dereferences the anonymous
user's carts attribute and ends in the unguarded internal failure,
which is neither the bad-request response nor a file. -/
theorem download_shopping_cart_no_auth_guard :
    (∀ (amounts : List AmountIngredient) (now : String),
      RecipeViewSet.download_shopping_cart none amounts now =
        DownloadResult.attrError ∧
      RecipeViewSet.download_shopping_cart none amounts now ≠
        DownloadResult.badRequest ∧
      ∀ (h : String) (l : List String) (f : String),
        RecipeViewSet.download_shopping_cart none amounts now ≠
          DownloadResult.file h l f) ∧
    (∀ (method : String) (queryset : List Nat) (obj_id : Nat)
        (k : RelationKey),
      (add_del_obj method none queryset obj_id k).1.status = Status.s401) ∧
    subscriptions none = none := by
  refine ⟨?_, fun _ _ _ _ => rfl, rfl⟩
  intro amounts now
  refine ⟨rfl, by simp [RecipeViewSet.download_shopping_cart], ?_⟩
  intro h l f
  simp [RecipeViewSet.download_shopping_cart]
